import Mathlib

/-!
Verification of the tenant-scoped authentication core of the task-manager
backend (`app/services/auth.py`, `app/middleware/tenant.py`,
`app/routers/auth.py`, `app/models/*.py`, `app/config.py`).

Modelling conventions:
* Time is a `Nat` of seconds; every occurrence of `datetime.utcnow()` inside
  one request handler is the single request time `now`.
* Database tables are lists of rows in insertion order; a SQLAlchemy `select`
  is a `List.filter`, `Result.scalar_one_or_none()` is `scalar_one_or_none`
  below (raising `MultipleResultsFound` on several rows), `Result.first()` is
  `List.head?`.  Autoincrement ids are assigned by `nextId` on flush.
* A handler returns `Except Err (response × DB)`; an exception aborts the
  request before `commit`, so the store a failed request leaves behind is the
  unchanged input `DB` (made explicit by `runDB`).
* Randomness (bcrypt salts, `secrets.token_urlsafe` refresh-token strings) is
  passed in as explicit arguments standing for the drawn values.
* SHA-256 (`hashlib.sha256(...).hexdigest()`) is modelled as an injective
  tagging of its input: deterministic and collision-free.
* A JWT is modelled structurally as its payload dict plus the key it was
  HMAC-signed with; verifying under key `k` succeeds exactly when the token
  was signed with `k`.  PyJWT checks `exp` when present and checks `iss` only
  when an `issuer` argument is passed to `jwt.decode`.
* The passlib `CryptContext` sees a password-hash column value either as a
  bcrypt hash it can identify (salt plus digest) or as an unidentifiable
  string; `CryptContext.verify` raises `UnknownHashError` on the latter.
* Redis (the rate-limit counter store) is a partial map from keys to a value
  with an optional expiry time.
-/

/-- Errors escaping a request handler: an HTTP error response raised as
`HTTPException(status_code, detail)`, or SQLAlchemy's `MultipleResultsFound`
escaping from `Result.scalar_one_or_none()` when a query that expected at
most one row matched several. -/
inductive Err where
  | http (statusCode : Nat) (detail : String)
  | multipleResultsFound
deriving DecidableEq

/-- Model of SQLAlchemy `Result.scalar_one_or_none()`: `None` when the query
returned no row, the row when it is unique, and `MultipleResultsFound` when
several rows matched. -/
def scalar_one_or_none {α : Type} : List α → Except Err (Option α)
  | [] => .ok none
  | [a] => .ok (some a)
  | _ :: _ :: _ => .error .multipleResultsFound

/-- Autoincrement primary keys: the store assigns one more than the largest
existing id on flush. -/
def nextId (ids : List Nat) : Nat := ids.foldr max 0 + 1

/-- Configuration from `app/config.py` `Settings`. -/
structure Settings where
  JWT_SECRET : String
  JWT_ISSUER : String
  ACCESS_TTL_MIN : Nat
  REFRESH_TTL_DAYS : Nat
  OTP_TTL_MIN : Nat
  GOOGLE_CLIENT_ID : Option String
deriving DecidableEq

/-- Environment-default configuration from `app/config.py`. -/
def defaultSettings : Settings :=
  ⟨"dev-secret-key", "taskmanager", 15, 7, 10, none⟩

/-- Value of a password-hash column as the passlib `CryptContext` with
`schemes=["bcrypt"]` classifies it: a bcrypt hash it can identify (the salt
together with the digest that bcrypt produced from salt and password), or a
string no configured scheme recognises. -/
inductive HashStr where
  | bcrypt (salt : String) (digest : String × String)
  | malformed (raw : String)
deriving DecidableEq

/-- Ideal model of the bcrypt KDF: the digest of password `pw` under `salt`.
Collision-freeness of bcrypt is modelled by keeping the inputs. -/
def bcryptDigest (salt pw : String) : String × String := (salt, pw)

/-- Error passlib raises when no configured scheme identifies a hash. -/
inductive PasslibError where
  | unknownHash
deriving DecidableEq

/-- Model of `pwd_context.hash`: bcrypt under a freshly drawn salt, which is
passed in explicitly. -/
def pwd_context_hash (salt : String) (password : String) : HashStr :=
  .bcrypt salt (bcryptDigest salt password)

/-- Model of `pwd_context.verify(secret, hash)`: identify the hash, recompute
the digest under the recorded salt and compare; raise `UnknownHashError` when
the hash cannot be identified. -/
def pwd_context_verify (plain : String) (h : HashStr) : Except PasslibError Bool :=
  match h with
  | .bcrypt salt digest => .ok (digest == bcryptDigest salt plain)
  | .malformed _ => .error .unknownHash

/-- Function `AuthService.hash_password` of `app/services/auth.py`: delegates
to `pwd_context.hash`. -/
def AuthService.hash_password (salt : String) (password : String) : HashStr :=
  pwd_context_hash salt password

/-- Function `AuthService.verify_password`: delegates to `pwd_context.verify`
with no exception handling, so passlib's `UnknownHashError` on an
unidentifiable hash propagates to the caller. -/
def AuthService.verify_password (plain_password : String) (hashed_password : HashStr) :
    Except PasslibError Bool :=
  pwd_context_verify plain_password hashed_password

/-- Function `AuthService.hash_token`: the SHA-256 hex digest of the token,
modelled as an injective tagging (deterministic and collision-free). -/
def AuthService.hash_token (token : String) : String :=
  "sha256:" ++ token

/-- Claim set of a JWT payload dict.  Every claim is optional: `jwt.decode`
returns whatever claims are present, and PyJWT's `exp` check fires only when
an `exp` claim exists. -/
structure JwtPayload where
  user_id : Option Nat
  org_id : Option Nat
  role : Option String
  exp : Option Nat
  iss : Option String
deriving DecidableEq

/-- Serialised JWT: the payload plus its HMAC-SHA256 signature, modelled by
recording the key the token was signed with. -/
structure Jwt where
  payload : JwtPayload
  signedWith : String
deriving DecidableEq

/-- Model of `jwt.encode(payload, key, algorithm="HS256")`. -/
def jwtEncode (payload : JwtPayload) (key : String) : Jwt :=
  ⟨payload, key⟩

/-- Model of `jwt.decode(token, key, algorithms=["HS256"])` evaluated at time
`now`: signature check, then rejection of a present-and-elapsed `exp` claim.
No `issuer` argument is passed at the call site in `verify_token`, so PyJWT
performs no issuer validation. -/
def jwtDecode (t : Jwt) (key : String) (now : Nat) : Option JwtPayload :=
  if t.signedWith == key then
    match t.payload.exp with
    | some e => if now < e then some t.payload else none
    | none => some t.payload
  else none

/-- Function `AuthService.create_access_token(data)` with the dict
`{"user_id", "org_id", "role"}` every caller passes: stamps
`exp = now + ACCESS_TTL_MIN minutes` and `iss = JWT_ISSUER`, then signs with
`JWT_SECRET`. -/
def AuthService.create_access_token (s : Settings) (now : Nat)
    (user_id org_id : Nat) (role : String) : Jwt :=
  jwtEncode
    ⟨some user_id, some org_id, some role,
      some (now + s.ACCESS_TTL_MIN * 60), some s.JWT_ISSUER⟩
    s.JWT_SECRET

/-- Function `AuthService.verify_token`: `jwt.decode` under `JWT_SECRET` and
`None` on any `PyJWTError`. -/
def AuthService.verify_token (s : Settings) (now : Nat) (t : Jwt) : Option JwtPayload :=
  jwtDecode t s.JWT_SECRET now

/-- Row of `app/models/organization.py` (columns the auth core reads). -/
structure Organization where
  id : Nat
  name : String
  subdomain : String
deriving DecidableEq

/-- Row of `app/models/user.py`; `password_hash` is nullable (OAuth-only
accounts have none). -/
structure User where
  id : Nat
  email : String
  password_hash : Option HashStr
deriving DecidableEq

/-- Row of `app/models/membership.py`. -/
structure MembershipRow where
  id : Nat
  user_id : Nat
  org_id : Nat
  role : String
deriving DecidableEq

/-- Row of `app/models/otp_code.py`; `consumed` is the nullable consumption
timestamp. -/
structure OtpCode where
  id : Nat
  user_id : Nat
  code : String
  expires_at : Nat
  consumed : Option Nat
deriving DecidableEq

/-- Row of `app/models/refresh_token.py`. -/
structure RefreshToken where
  id : Nat
  user_id : Nat
  org_id : Nat
  token_hash : String
  expires_at : Nat
  revoked : Bool
deriving DecidableEq

/-- The relational store: the five tables the auth core touches. -/
structure DB where
  organizations : List Organization
  users : List User
  memberships : List MembershipRow
  otp_codes : List OtpCode
  refresh_tokens : List RefreshToken
deriving DecidableEq

/-- Authorization header, modelled structurally as its scheme word and the
JWT credential it carries; the code's `auth_header.startswith("Bearer ")`
followed by `auth_header.split(" ")[1]` becomes a scheme check plus the token
projection. -/
structure AuthHeader where
  scheme : String
  token : Jwt
deriving DecidableEq

/-- Request metadata the tenant resolver reads: the `host` header (empty
string when absent, matching `request.headers.get("host", "")`) and the
optional `Authorization` header. -/
structure Request where
  host : String
  authorization : Option AuthHeader
deriving DecidableEq

/-- Leftmost dot-separated label of a host, Python `host.split(".")[0]`. -/
def hostLeftLabel (host : String) : String :=
  String.mk (host.toList.takeWhile (fun c => c ≠ '.'))

/-- Test for Python `"." in host`. -/
def hostHasDot (host : String) : Bool := host.toList.contains '.'

/-- Fallback branch of `TenantMiddleware.resolve_organization`
(`app/middleware/tenant.py`, lines 27–38): an organization looked up by the
`org_id` claim of a decodable bearer token, when one is present. -/
def TenantMiddleware.resolveViaToken (s : Settings) (now : Nat) (db : DB)
    (req : Request) : Except Err (Option Organization) :=
  match req.authorization with
  | some h =>
    if h.scheme == "Bearer" then
      match AuthService.verify_token s now h.token with
      | some payload =>
        match payload.org_id with
        | some oid => scalar_one_or_none (db.organizations.filter (fun o => o.id == oid))
        | none => .ok none
      | none => .ok none
    else .ok none
  | none => .ok none

/-- Method `TenantMiddleware.resolve_organization` of
`app/middleware/tenant.py`: look the leftmost host label up as a subdomain
(unless it is empty or `"www"`); when that finds an organization return it,
otherwise fall back to the bearer token via `resolveViaToken`. -/
def TenantMiddleware.resolve_organization (s : Settings) (now : Nat) (db : DB)
    (req : Request) : Except Err (Option Organization) :=
  match (if hostHasDot req.host then
      (if hostLeftLabel req.host != "" && hostLeftLabel req.host != "www" then
        scalar_one_or_none
          (db.organizations.filter (fun o => o.subdomain == hostLeftLabel req.host))
      else .ok none)
    else .ok none : Except Err (Option Organization)) with
  | .error e => .error e
  | .ok (some org) => .ok (some org)
  | .ok none => TenantMiddleware.resolveViaToken s now db req

/-- Body of `POST /auth/register`. -/
structure RegisterRequest where
  organization_name : String
  subdomain : String
  email : String
  password : String
deriving DecidableEq

/-- Response of the token-issuing handlers. -/
structure TokenResponse where
  access_token : Jwt
  refresh_token : String
  expires_in : Nat
deriving DecidableEq

/-- Handler `register` of `app/routers/auth.py`: reject a taken subdomain,
then a taken email, then create the organization, the user, the admin
membership and a refresh-token row, and return the token pair.  `salt` is the
bcrypt salt passlib draws and `rawRefresh` the random string
`secrets.token_urlsafe(32)` returns. -/
def AuthRouter.register (s : Settings) (now : Nat) (salt : String)
    (rawRefresh : String) (db : DB) (req : RegisterRequest) :
    Except Err (TokenResponse × DB) :=
  match scalar_one_or_none (db.organizations.filter (fun o => o.subdomain == req.subdomain)) with
  | .error e => .error e
  | .ok (some _) => .error (.http 400 "Subdomain already exists")
  | .ok none =>
    match scalar_one_or_none (db.users.filter (fun u => u.email == req.email)) with
    | .error e => .error e
    | .ok (some _) => .error (.http 400 "Email already registered")
    | .ok none =>
      let org : Organization :=
        ⟨nextId (db.organizations.map (·.id)), req.organization_name, req.subdomain⟩
      let user : User :=
        ⟨nextId (db.users.map (·.id)), req.email,
          some (AuthService.hash_password salt req.password)⟩
      let membership : MembershipRow :=
        ⟨nextId (db.memberships.map (·.id)), user.id, org.id, "admin"⟩
      let access_token := AuthService.create_access_token s now user.id org.id "admin"
      let rt : RefreshToken :=
        ⟨nextId (db.refresh_tokens.map (·.id)), user.id, org.id,
          AuthService.hash_token rawRefresh,
          now + s.REFRESH_TTL_DAYS * 86400, false⟩
      .ok (⟨access_token, rawRefresh, s.ACCESS_TTL_MIN * 60⟩,
        ⟨db.organizations ++ [org], db.users ++ [user],
          db.memberships ++ [membership], db.otp_codes, db.refresh_tokens ++ [rt]⟩)

/-- Row predicate of the OTP query in `verify_otp`: the user's code, not yet
expired, not yet consumed. -/
def otpMatches (uid : Nat) (code : String) (now : Nat) (o : OtpCode) : Bool :=
  o.user_id == uid && o.code == code && now < o.expires_at && o.consumed == none

/-- Handler `verify_otp` of `app/routers/auth.py`: look the user up by email,
then the valid OTP row; mark it consumed, fetch the user's membership with
`scalar_one_or_none`, and issue the token pair bound to that membership. -/
def AuthRouter.verify_otp (s : Settings) (now : Nat) (rawRefresh : String)
    (db : DB) (email code : String) : Except Err (TokenResponse × DB) :=
  match scalar_one_or_none (db.users.filter (fun u => u.email == email)) with
  | .error e => .error e
  | .ok none => .error (.http 401 "Invalid credentials")
  | .ok (some user) =>
    match scalar_one_or_none (db.otp_codes.filter (otpMatches user.id code now)) with
    | .error e => .error e
    | .ok none => .error (.http 401 "Invalid or expired OTP")
    | .ok (some otp) =>
      let otp_codes' := db.otp_codes.map
        (fun o => if o.id == otp.id then ⟨o.id, o.user_id, o.code, o.expires_at, some now⟩ else o)
      match scalar_one_or_none (db.memberships.filter (fun m => m.user_id == user.id)) with
      | .error e => .error e
      | .ok none => .error (.http 400 "User has no organization membership")
      | .ok (some membership) =>
        let access_token :=
          AuthService.create_access_token s now user.id membership.org_id membership.role
        let rt : RefreshToken :=
          ⟨nextId (db.refresh_tokens.map (·.id)), user.id, membership.org_id,
            AuthService.hash_token rawRefresh,
            now + s.REFRESH_TTL_DAYS * 86400, false⟩
        .ok (⟨access_token, rawRefresh, s.ACCESS_TTL_MIN * 60⟩,
          ⟨db.organizations, db.users, db.memberships, otp_codes',
            db.refresh_tokens ++ [rt]⟩)

/-- Row predicate of the refresh-token query in the refresh handler: the
presented hash, not yet expired, not revoked. -/
def refreshMatches (tokenHash : String) (now : Nat) (r : RefreshToken) : Bool :=
  r.token_hash == tokenHash && now < r.expires_at && r.revoked == false

/-- Handler `refresh_token` of `app/routers/auth.py`: hash the presented
token and look it up (unexpired, unrevoked); join users with memberships on
the token's `(user_id, org_id)` and take the first row; revoke the presented
row and insert a freshly generated replacement bound to the same pair.
`rawNew` is the random string `secrets.token_urlsafe(32)` returns. -/
def AuthRouter.refresh_token (s : Settings) (now : Nat) (rawNew : String)
    (db : DB) (presented : String) : Except Err (TokenResponse × DB) :=
  let token_hash := AuthService.hash_token presented
  match scalar_one_or_none (db.refresh_tokens.filter (refreshMatches token_hash now)) with
  | .error e => .error e
  | .ok none => .error (.http 401 "Invalid refresh token")
  | .ok (some tokRec) =>
    let rows := db.users.flatMap (fun u => db.memberships.filterMap (fun m =>
      if u.id == m.user_id && u.id == tokRec.user_id && m.org_id == tokRec.org_id
      then some (u, m) else none))
    match rows.head? with
    | none => .error (.http 401 "User or membership not found")
    | some userMembership =>
      let user := userMembership.1
      let membership := userMembership.2
      let refresh_tokens' := db.refresh_tokens.map
        (fun r => if r.id == tokRec.id then
          ⟨r.id, r.user_id, r.org_id, r.token_hash, r.expires_at, true⟩ else r)
      let access_token :=
        AuthService.create_access_token s now user.id membership.org_id membership.role
      let newRt : RefreshToken :=
        ⟨nextId (refresh_tokens'.map (·.id)), user.id, membership.org_id,
          AuthService.hash_token rawNew,
          now + s.REFRESH_TTL_DAYS * 86400, false⟩
      .ok (⟨access_token, rawNew, s.ACCESS_TTL_MIN * 60⟩,
        ⟨db.organizations, db.users, db.memberships, db.otp_codes,
          refresh_tokens' ++ [newRt]⟩)

/-- Identity returned by Google token verification. -/
structure GoogleUserInfo where
  email : String
  name : String
  sub : String
deriving DecidableEq

/-- Function `AuthService.verify_google_token`: when no Google client id is
configured (`GOOGLE_CLIENT_ID` unset or empty, Python-falsy), mock mode
accepts exactly the literal `"MOCK_ID_TOKEN"` and rejects everything else;
otherwise it delegates to Google's verifier, modelled by the external oracle
`extVerify` (already `none` on `ValueError`). -/
def AuthService.verify_google_token (s : Settings)
    (extVerify : String → Option GoogleUserInfo) (token : String) :
    Option GoogleUserInfo :=
  if s.GOOGLE_CLIENT_ID.getD "" == "" then
    if token == "MOCK_ID_TOKEN" then
      some ⟨"test@example.com", "Test User", "mock_google_id"⟩
    else none
  else extVerify token

/-- Handler `google_login` of `app/routers/auth.py`: verify the external
token, resolve the organization from the request (hard 400 without one),
find-or-create the user by verified email and the membership in the resolved
organization (role `member` when newly created), and issue the token pair. -/
def AuthRouter.google_login (s : Settings) (now : Nat)
    (extVerify : String → Option GoogleUserInfo) (rawRefresh : String)
    (db : DB) (req : Request) (id_token : String) :
    Except Err (TokenResponse × DB) :=
  match AuthService.verify_google_token s extVerify id_token with
  | none => .error (.http 401 "Invalid Google token")
  | some user_info =>
    match TenantMiddleware.resolve_organization s now db req with
    | .error e => .error e
    | .ok none => .error (.http 400 "Organization context required")
    | .ok (some org) =>
      match scalar_one_or_none (db.users.filter (fun u => u.email == user_info.email)) with
      | .error e => .error e
      | .ok found =>
        let user : User :=
          match found with
          | some u => u
          | none => ⟨nextId (db.users.map (·.id)), user_info.email, none⟩
        let users' : List User :=
          match found with
          | some _ => db.users
          | none => db.users ++ [user]
        match scalar_one_or_none (db.memberships.filter
          (fun m => m.user_id == user.id && m.org_id == org.id)) with
        | .error e => .error e
        | .ok foundM =>
          let membership : MembershipRow :=
            match foundM with
            | some m => m
            | none => ⟨nextId (db.memberships.map (·.id)), user.id, org.id, "member"⟩
          let memberships' : List MembershipRow :=
            match foundM with
            | some _ => db.memberships
            | none => db.memberships ++ [membership]
          let access_token :=
            AuthService.create_access_token s now user.id org.id membership.role
          let rt : RefreshToken :=
            ⟨nextId (db.refresh_tokens.map (·.id)), user.id, org.id,
              AuthService.hash_token rawRefresh,
              now + s.REFRESH_TTL_DAYS * 86400, false⟩
          .ok (⟨access_token, rawRefresh, s.ACCESS_TTL_MIN * 60⟩,
            ⟨db.organizations, users', memberships', db.otp_codes,
              db.refresh_tokens ++ [rt]⟩)

/-- Redis value together with its expiry time (`none` for no TTL). -/
structure RedisEntry where
  value : Nat
  expires_at : Option Nat
deriving DecidableEq

/-- Redis keyspace, as the partial map it implements. -/
abbrev Redis := String → Option RedisEntry

/-- An entry is live at `now` unless its TTL has elapsed. -/
def RedisEntry.live (e : RedisEntry) (now : Nat) : Bool :=
  match e.expires_at with
  | none => true
  | some t => now < t

/-- Redis `GET`: the stored value, nil when absent or expired. -/
def redisGet (r : Redis) (now : Nat) (k : String) : Option Nat :=
  match r k with
  | some e => if e.live now then some e.value else none
  | none => none

/-- Redis `SETEX key ttl value`. -/
def redisSetex (r : Redis) (now : Nat) (k : String) (ttl : Nat) (v : Nat) : Redis :=
  fun k' => if k' == k then some ⟨v, some (now + ttl)⟩ else r k'

/-- Redis `INCR`: bump a live entry keeping its TTL; an absent or expired key
becomes `1` with no TTL. -/
def redisIncr (r : Redis) (now : Nat) (k : String) : Redis :=
  fun k' =>
    if k' == k then
      match r k with
      | some e => if e.live now then some ⟨e.value + 1, e.expires_at⟩ else some ⟨1, none⟩
      | none => some ⟨1, none⟩
    else r k'

/-- Function `AuthService.check_rate_limit(key, limit=5, window=300)`: a
fixed-window counter.  First call in a window stores `1` with TTL `window`
and allows; a call that finds the counter at or above `limit` is rejected
without touching the store; otherwise the counter is incremented and the call
allowed.  Returns the decision together with the updated store. -/
def AuthService.check_rate_limit (r : Redis) (now : Nat) (key : String)
    (limit : Nat) (window : Nat) : Bool × Redis :=
  match redisGet r now key with
  | none => (true, redisSetex r now key window 1)
  | some current =>
    if limit ≤ current then (false, r)
    else (true, redisIncr r now key)

/-- Iterate `check_rate_limit` on one key at the given sequence of call
times. -/
def rateCalls (key : String) (limit window : Nat) : Redis → List Nat → List Bool × Redis
  | r, [] => ([], r)
  | r, t :: ts =>
    let res := AuthService.check_rate_limit r t key limit window
    let rest := rateCalls key limit window res.2 ts
    (res.1 :: rest.1, rest.2)

/-- Store visible after a handler run: the committed state on success; on an
exception nothing was committed, so the store is unchanged. -/
def runDB (db : DB) (r : Except Err (TokenResponse × DB)) : DB :=
  match r with
  | .ok (_, db') => db'
  | .error _ => db

/-- Fallback step of claim C2's resolution priority, in the spec's words: if
a bearer token is present and decodes with an `org_id` claim, the
organization is looked up by that id; otherwise no organization is
resolved. -/
def resolveSpecC2Token (s : Settings) (now : Nat) (db : DB) (req : Request) :
    Option Organization :=
  match req.authorization with
  | some h =>
    if h.scheme == "Bearer" then
      match AuthService.verify_token s now h.token with
      | some payload =>
        match payload.org_id with
        | some oid => db.organizations.find? (fun o => o.id == oid)
        | none => none
      | none => none
    else none
  | none => none

/-- Subdomain-first part of claim C2's resolution order, in the spec's words;
the token claim (`resolveSpecC2Token`) is consulted only when no subdomain
match is returned. -/
def resolveSpecC2 (s : Settings) (now : Nat) (db : DB) (req : Request) :
    Option Organization :=
  match (if hostHasDot req.host then
      (if hostLeftLabel req.host != "" && hostLeftLabel req.host != "www" then
        db.organizations.find? (fun o => o.subdomain == hostLeftLabel req.host)
      else none)
    else none : Option Organization) with
  | some org => some org
  | none => resolveSpecC2Token s now db req

/-- Access token signed with the configured secret and unexpired, but whose
issuer claim differs from the configured `JWT_ISSUER`. -/
def evilIssuerToken : Jwt :=
  jwtEncode ⟨some 1, some 1, some "admin", some 900, some "evil-issuer"⟩ "dev-secret-key"

/-- Store holding one organization, one user with an admin membership, and a
single valid OTP row for that user. -/
def c4DB : DB :=
  ⟨[⟨1, "Acme", "acme"⟩], [⟨1, "a@x.com", none⟩], [⟨1, 1, 1, "admin"⟩],
    [⟨1, 1, "123456", 100, none⟩], []⟩

/-- Store like `c4DB` but holding two duplicate valid OTP rows with the same
code for the same user. -/
def c4DupDB : DB :=
  ⟨[⟨1, "Acme", "acme"⟩], [⟨1, "a@x.com", none⟩], [⟨1, 1, 1, "admin"⟩],
    [⟨1, 1, "123456", 100, none⟩, ⟨2, 1, "123456", 100, none⟩], []⟩

/-- Store holding one user who is a member of two organizations and has one
valid OTP row. -/
def c8DB : DB :=
  ⟨[⟨1, "Acme", "acme"⟩, ⟨2, "Beta", "beta"⟩], [⟨1, "a@x.com", none⟩],
    [⟨1, 1, 1, "admin"⟩, ⟨2, 1, 2, "member"⟩], [⟨1, 1, "654321", 100, none⟩], []⟩

/-- Store holding one organization, one user with an admin membership, and a
stored, unrevoked, unexpired refresh token whose raw value is `"rawT"`. -/
def c1DB : DB :=
  ⟨[⟨1, "Acme", "acme"⟩], [⟨1, "a@x.com", none⟩], [⟨1, 1, 1, "admin"⟩], [],
    [⟨1, 1, 1, AuthService.hash_token "rawT", 1000, false⟩]⟩

/-- Store holding one organization with subdomain `"acme"` and its admin
user. -/
def c6DB : DB :=
  ⟨[⟨1, "Acme", "acme"⟩], [⟨1, "a@x.com", none⟩], [⟨1, 1, 1, "admin"⟩], [], []⟩

/-- Store holding one organization with subdomain `"testco"` and nothing
else. -/
def c10DB : DB :=
  ⟨[⟨1, "Test Company", "testco"⟩], [], [], [], []⟩

/-- Store with two organizations, for exercising tenant resolution. -/
def c2DB : DB :=
  ⟨[⟨1, "Acme", "acme"⟩, ⟨2, "Beta", "beta"⟩], [], [], [], []⟩

lemma find?_eq_head?_filter {α : Type} (p : α → Bool) :
    ∀ l : List α, l.find? p = (l.filter p).head?
  | [] => rfl
  | a :: t => by
    by_cases h : p a
    · rw [List.find?_cons_of_pos _ h, List.filter_cons_of_pos h]
      rfl
    · have h' : p a = false := by simpa using h
      rw [List.find?_cons_of_neg _ (by simp [h']), List.filter_cons_of_neg (by simp [h']),
        find?_eq_head?_filter p t]

lemma length_filter_le_one_of_key {α β : Type} (f : α → β) (p : α → Bool) (l : List α)
    (hnd : (l.map f).Nodup)
    (hkey : ∀ x y, p x = true → p y = true → f x = f y) :
    (l.filter p).length ≤ 1 := by
  match h : l.filter p with
  | [] => simp
  | [_] => simp
  | a :: b :: t =>
    exfalso
    have hsub : List.Sublist ((l.filter p).map f) (l.map f) := (List.filter_sublist l).map f
    have hnd2 : ((l.filter p).map f).Nodup := hnd.sublist hsub
    rw [h] at hnd2
    have hpa : p a = true := by
      have : a ∈ l.filter p := by rw [h]; exact List.mem_cons_self a (b :: t)
      exact List.of_mem_filter this
    have hpb : p b = true := by
      have : b ∈ l.filter p := by
        rw [h]; exact List.mem_cons_of_mem a (List.mem_cons_self b t)
      exact List.of_mem_filter this
    have hfab : f a = f b := hkey a b hpa hpb
    have : f a ∉ (b :: t).map f := (List.nodup_cons.1 (by simpa using hnd2)).1
    exact this (by simp [hfab])

lemma scalar_of_len_le_one {α : Type} (l : List α) (h : l.length ≤ 1) :
    scalar_one_or_none l = .ok l.head? := by
  match l with
  | [] => rfl
  | [_] => rfl
  | _ :: _ :: _ => simp at h

lemma scalar_filter_eq_find {α β : Type} [BEq β] [LawfulBEq β] (f : α → β) (l : List α)
    (hnd : (l.map f).Nodup) (b : β) :
    scalar_one_or_none (l.filter (fun x => f x == b))
      = .ok (l.find? (fun x => f x == b)) := by
  rw [scalar_of_len_le_one _ (length_filter_le_one_of_key f _ l hnd ?_),
    find?_eq_head?_filter]
  intro x y hx hy
  rw [beq_iff_eq] at hx hy
  rw [hx, hy]

lemma filter_eq_singleton_key {α β : Type} (f : α → β) (p : α → Bool) (l : List α) (a : α)
    (hmem : a ∈ l) (hpa : p a = true)
    (hkey : ∀ x, p x = true → f x = f a)
    (hnd : (l.map f).Nodup) :
    l.filter p = [a] := by
  have hlen : (l.filter p).length ≤ 1 :=
    length_filter_le_one_of_key f p l hnd
      (fun x y hx hy => (hkey x hx).trans (hkey y hy).symm)
  have hamem : a ∈ l.filter p := List.mem_filter.2 ⟨hmem, hpa⟩
  match h : l.filter p with
  | [] => rw [h] at hamem; cases hamem
  | [b] =>
    rw [h] at hamem
    have : a = b := by simpa using hamem
    rw [this]
  | _ :: _ :: _ => rw [h] at hlen; simp at hlen

/-- C9: password hashing round-trips — `verifyPassword(p, hashPassword(p))`
holds for every plaintext, and two hashing calls (which draw distinct salts)
produce different hashes that both verify. -/
theorem C9_password_roundtrip (p salt₁ salt₂ : String) (hs : salt₁ ≠ salt₂) :
    AuthService.verify_password p (AuthService.hash_password salt₁ p) = .ok true
    ∧ AuthService.hash_password salt₁ p ≠ AuthService.hash_password salt₂ p
    ∧ AuthService.verify_password p (AuthService.hash_password salt₂ p) = .ok true := by
  refine ⟨?_, ?_, ?_⟩
  · simp [AuthService.verify_password, AuthService.hash_password, pwd_context_hash,
      pwd_context_verify]
  · simp [AuthService.hash_password, pwd_context_hash, bcryptDigest, hs]
  · simp [AuthService.verify_password, AuthService.hash_password, pwd_context_hash,
      pwd_context_verify]

/-- Witness for C9 at concrete plaintext and salts. -/
theorem C9_password_roundtrip_witness :
    AuthService.verify_password "pw" (AuthService.hash_password "saltA" "pw") = .ok true
    ∧ AuthService.hash_password "saltA" "pw" ≠ AuthService.hash_password "saltB" "pw"
    ∧ AuthService.verify_password "pw" (AuthService.hash_password "saltB" "pw") = .ok true :=
  C9_password_roundtrip "pw" "saltA" "saltB" (by decide)

/-- C7 counterexample: on a hash string passlib cannot identify,
`verify_password` raises `UnknownHashError` instead of returning `false`, so
it is not total on malformed hashes as claimed. -/
theorem C7_verify_password_counterexample :
    AuthService.verify_password "password123" (.malformed "not-a-bcrypt-hash")
      = .error .unknownHash
    ∧ AuthService.verify_password "password123" (.malformed "not-a-bcrypt-hash")
      ≠ .ok false := by
  refine ⟨rfl, ?_⟩
  intro h
  cases h

/-- C7 (amended): `verify_password` returns a boolean for every hash passlib
can identify, and raises passlib's `UnknownHashError` on every malformed hash
string rather than returning `false`. -/
theorem C7_verify_password_behaviour (plain salt raw : String) (digest : String × String) :
    (∃ b : Bool, AuthService.verify_password plain (.bcrypt salt digest) = .ok b)
    ∧ AuthService.verify_password plain (.malformed raw) = .error .unknownHash :=
  ⟨⟨digest == bcryptDigest salt plain, rfl⟩, rfl⟩

/-- C5 counterexample: a token signed with the configured secret and
unexpired, but carrying issuer `"evil-issuer"` instead of the configured
`"taskmanager"`, is accepted by `verify_token` — the wrong issuer is not
rejected. -/
theorem C5_issuer_not_checked_counterexample :
    AuthService.verify_token defaultSettings 0 evilIssuerToken
      = some evilIssuerToken.payload
    ∧ evilIssuerToken.payload.iss = some "evil-issuer"
    ∧ defaultSettings.JWT_ISSUER = "taskmanager" := by
  refine ⟨?_, rfl, rfl⟩
  rfl

/-- C5 (amended): `verify_token` fails closed on exactly the signature and a
present expiry — it returns the embedded claims iff the token is signed with
the shared secret and its `exp` claim (always set by `create_access_token`)
has not elapsed, and otherwise returns no claims; the issuer claim is stamped
at creation but never validated at verification. -/
theorem C5_verify_token_checks (s : Settings) (now : Nat) (t : Jwt) :
    (AuthService.verify_token s now t = some t.payload
      ∨ AuthService.verify_token s now t = none)
    ∧ (AuthService.verify_token s now t = some t.payload ↔
        (t.signedWith = s.JWT_SECRET ∧ ∀ e, t.payload.exp = some e → now < e)) := by
  by_cases hsig : t.signedWith = s.JWT_SECRET
  · cases hexp : t.payload.exp with
    | none =>
      have hv : AuthService.verify_token s now t = some t.payload := by
        unfold AuthService.verify_token jwtDecode
        rw [hexp]
        simp [hsig]
      refine ⟨Or.inl hv, ⟨fun _ => ⟨hsig, fun e he => ?_⟩, fun _ => hv⟩⟩
      cases he
    | some e =>
      by_cases hlt : now < e
      · have hv : AuthService.verify_token s now t = some t.payload := by
          unfold AuthService.verify_token jwtDecode
          rw [hexp]
          simp [hsig, hlt]
        refine ⟨Or.inl hv, ⟨fun _ => ⟨hsig, fun e' he' => ?_⟩, fun _ => hv⟩⟩
        cases he'
        exact hlt
      · have hv : AuthService.verify_token s now t = none := by
          unfold AuthService.verify_token jwtDecode
          rw [hexp]
          simp [hsig, hlt]
        refine ⟨Or.inr hv, ⟨fun h => ?_, fun h => ?_⟩⟩
        · rw [hv] at h
          cases h
        · exact absurd (h.2 e rfl) hlt
  · have hv : AuthService.verify_token s now t = none := by
      unfold AuthService.verify_token jwtDecode
      have : (t.signedWith == s.JWT_SECRET) = false := beq_eq_false_iff_ne.2 hsig
      simp [this]
    refine ⟨Or.inr hv, ⟨fun h => ?_, fun h => ?_⟩⟩
    · rw [hv] at h
      cases h
    · exact absurd h.1 hsig

/-- Witness for C5's amended theorem: a well-formed token issued by
`create_access_token` verifies to its own payload. -/
theorem C5_verify_token_checks_witness :
    AuthService.verify_token defaultSettings 0
        (jwtEncode ⟨some 1, some 1, some "admin", some 900, some "taskmanager"⟩
          "dev-secret-key")
      = some ⟨some 1, some 1, some "admin", some 900, some "taskmanager"⟩ :=
  (C5_verify_token_checks defaultSettings 0
      (jwtEncode ⟨some 1, some 1, some "admin", some 900, some "taskmanager"⟩
        "dev-secret-key")).2.mpr
    ⟨rfl, by
      intro e he
      simp only [jwtEncode] at he
      cases he
      decide⟩

/-- C6: registration is conflict-checked before anything is created — when
the subdomain or the email is already taken, `register` fails with a 400
error, and the store after the failed attempt is unchanged (no organization,
user or membership row is left behind). -/
theorem C6_register_conflict (s : Settings) (now : Nat) (salt rawRefresh : String)
    (db : DB) (req : RegisterRequest)
    (hndSub : (db.organizations.map (·.subdomain)).Nodup)
    (hndEmail : (db.users.map (·.email)).Nodup)
    (hconflict : (∃ o ∈ db.organizations, o.subdomain = req.subdomain)
      ∨ (∃ u ∈ db.users, u.email = req.email)) :
    (∃ detail, AuthRouter.register s now salt rawRefresh db req
        = .error (.http 400 detail))
    ∧ runDB db (AuthRouter.register s now salt rawRefresh db req) = db := by
  have hmain : ∃ detail, AuthRouter.register s now salt rawRefresh db req
      = .error (.http 400 detail) := by
    by_cases hsub : ∃ o ∈ db.organizations, o.subdomain = req.subdomain
    · obtain ⟨o, ho, hos⟩ := hsub
      have hfil : db.organizations.filter (fun o => o.subdomain == req.subdomain) = [o] :=
        filter_eq_singleton_key (fun x => x.subdomain) _ _ o ho (by simp [hos])
          (fun x hx => by
            rw [beq_iff_eq] at hx
            show x.subdomain = o.subdomain
            rw [hx, hos]) hndSub
      refine ⟨"Subdomain already exists", ?_⟩
      unfold AuthRouter.register
      rw [hfil]
      rfl
    · have hfil : db.organizations.filter (fun o => o.subdomain == req.subdomain) = [] :=
        List.filter_eq_nil_iff.2 (fun o ho h => hsub ⟨o, ho, by simpa using h⟩)
      rcases hconflict with h | ⟨u, hu, hue⟩
      · exact absurd h hsub
      · have hfilu : db.users.filter (fun u => u.email == req.email) = [u] :=
          filter_eq_singleton_key (fun x => x.email) _ _ u hu (by simp [hue])
            (fun x hx => by
              rw [beq_iff_eq] at hx
              show x.email = u.email
              rw [hx, hue]) hndEmail
        refine ⟨"Email already registered", ?_⟩
        unfold AuthRouter.register
        rw [hfil, hfilu]
        rfl
  obtain ⟨d, hd⟩ := hmain
  refine ⟨⟨d, hd⟩, ?_⟩
  rw [hd]
  rfl

/-- Witness for C6: re-registering the taken subdomain `"acme"` fails with a
400 error and leaves the store unchanged. -/
theorem C6_register_conflict_witness :
    (∃ detail, AuthRouter.register defaultSettings 0 "salt" "raw" c6DB
        ⟨"Other", "acme", "b@x.com", "pw"⟩ = .error (.http 400 detail))
    ∧ runDB c6DB (AuthRouter.register defaultSettings 0 "salt" "raw" c6DB
        ⟨"Other", "acme", "b@x.com", "pw"⟩) = c6DB :=
  C6_register_conflict defaultSettings 0 "salt" "raw" c6DB ⟨"Other", "acme", "b@x.com", "pw"⟩
    (by decide) (by decide)
    (Or.inl ⟨⟨1, "Acme", "acme"⟩, by decide, rfl⟩)

/-- C2: tenant resolution follows the claimed fixed priority —
`resolve_organization` agrees with the resolver stated in the spec's words
(`resolveSpecC2`): a subdomain match from the host's leftmost label (unless
empty or `"www"`) wins outright, even over a disagreeing bearer-token
`org_id` claim, which is consulted only as fallback; with neither, no
organization is resolved.  Uniqueness of subdomains and ids is the schema's
unique-column constraint. -/
theorem C2_tenant_resolution_priority (s : Settings) (now : Nat) (db : DB) (req : Request)
    (hndSub : (db.organizations.map (·.subdomain)).Nodup)
    (hndId : (db.organizations.map (·.id)).Nodup) :
    TenantMiddleware.resolve_organization s now db req
      = .ok (resolveSpecC2 s now db req) := by
  have hfall : TenantMiddleware.resolveViaToken s now db req
      = .ok (resolveSpecC2Token s now db req) := by
    unfold TenantMiddleware.resolveViaToken resolveSpecC2Token
    cases req.authorization with
    | none => rfl
    | some h =>
      by_cases hscheme : (h.scheme == "Bearer") = true
      · cases hver : AuthService.verify_token s now h.token with
        | none => simp [hscheme, hver]
        | some payload =>
          cases horg : payload.org_id with
          | none => simp [hscheme, hver, horg]
          | some oid =>
            simp [hscheme, hver, horg,
              scalar_filter_eq_find (fun o => o.id) db.organizations hndId]
      · simp [hscheme]
  unfold TenantMiddleware.resolve_organization resolveSpecC2
  by_cases hdot : (hostHasDot req.host) = true
  · rw [if_pos hdot, if_pos hdot]
    by_cases hlab : (hostLeftLabel req.host != "" && hostLeftLabel req.host != "www") = true
    · rw [if_pos hlab, if_pos hlab,
        scalar_filter_eq_find (fun o => o.subdomain) db.organizations hndSub]
      cases db.organizations.find? (fun o => o.subdomain == hostLeftLabel req.host) with
      | some org => rfl
      | none => exact hfall
    · rw [if_neg hlab, if_neg hlab]
      exact hfall
  · rw [if_neg hdot, if_neg hdot]
    exact hfall

/-- Witness for C2: on a host whose subdomain label names organization 1
(`"acme"`) while the bearer token's `org_id` claim says organization 2, the
middleware result equals the spec-level resolution (the subdomain match). -/
theorem C2_tenant_resolution_priority_witness :
    TenantMiddleware.resolve_organization defaultSettings 0 c2DB
        ⟨"acme.example.local",
          some ⟨"Bearer", jwtEncode ⟨some 1, some 2, some "admin", none, none⟩
            "dev-secret-key"⟩⟩
      = .ok (resolveSpecC2 defaultSettings 0 c2DB
          ⟨"acme.example.local",
            some ⟨"Bearer", jwtEncode ⟨some 1, some 2, some "admin", none, none⟩
              "dev-secret-key"⟩⟩) :=
  C2_tenant_resolution_priority defaultSettings 0 c2DB
    ⟨"acme.example.local",
      some ⟨"Bearer", jwtEncode ⟨some 1, some 2, some "admin", none, none⟩
        "dev-secret-key"⟩⟩
    (by decide) (by decide)

/-- Rejected calls of the rate limiter do not touch the counter store: once
the counter is at or above the limit, `check_rate_limit` returns the store
unchanged. -/
lemma check_rate_limit_rejected (r : Redis) (now : Nat) (k : String) (n : Nat)
    (hget : redisGet r now k = some n) (hlim : 5 ≤ n) :
    AuthService.check_rate_limit r now k 5 300 = (false, r) := by
  unfold AuthService.check_rate_limit
  rw [hget]
  simp [hlim]

/-- Peeling one call off the expected decision sequence of a window whose
counter currently reads `c`. -/
lemma map_decide_range_succ (c len : Nat) :
    (List.range (len + 1)).map (fun i => decide (c + i < 5))
      = decide (c < 5) :: (List.range len).map (fun i => decide (c + 1 + i < 5)) := by
  rw [List.range_succ_eq_map, List.map_cons, List.map_map]
  have hhead : decide (c + 0 < 5) = decide (c < 5) := by
    rw [decide_eq_decide]
    omega
  have htail : (List.range len).map ((fun i => decide (c + i < 5)) ∘ Nat.succ)
      = (List.range len).map (fun i => decide (c + 1 + i < 5)) := by
    refine List.map_congr_left (fun i _ => ?_)
    show decide (c + (i + 1) < 5) = decide (c + 1 + i < 5)
    rw [decide_eq_decide]
    omega
  rw [hhead, htail]

/-- Window invariant of the fixed-window counter: starting from a live
counter `n` (`1 ≤ n ≤ 5`) expiring at `T`, a sequence of calls before `T` is
allowed exactly while the counter stays below 5, the counter absorbs only the
allowed calls, and the expiry `T` never moves. -/
lemma rateCalls_window_inv (k : String) (T : Nat) (ts : List Nat) :
    ∀ (r : Redis) (n : Nat), r k = some ⟨n, some T⟩ → 1 ≤ n → n ≤ 5 →
      (∀ t ∈ ts, t < T) →
      (rateCalls k 5 300 r ts).1
          = (List.range ts.length).map (fun i => decide (n + i < 5))
        ∧ (rateCalls k 5 300 r ts).2 k = some ⟨min (n + ts.length) 5, some T⟩ := by
  induction ts with
  | nil =>
    intro r n hr h1 h5 _
    refine ⟨rfl, ?_⟩
    show r k = _
    rw [hr]
    simp
    omega
  | cons t ts ih =>
    intro r n hr h1 h5 hts
    have ht : t < T := hts t (List.mem_cons_self t ts)
    have hlive : RedisEntry.live ⟨n, some T⟩ t = true := by
      simp [RedisEntry.live, ht]
    have hget : redisGet r t k = some n := by
      simp [redisGet, hr, hlive]
    by_cases hn : 5 ≤ n
    · have hstep : AuthService.check_rate_limit r t k 5 300 = (false, r) :=
        check_rate_limit_rejected r t k n hget hn
      have hrest := ih r n hr h1 h5 (fun x hx => hts x (List.mem_cons_of_mem t hx))
      constructor
      · simp only [rateCalls, hstep]
        rw [hrest.1, List.length_cons, map_decide_range_succ n ts.length]
        congr 1
        · have h5' : ¬ n < 5 := by omega
          simp [h5']
        · refine List.map_congr_left (fun i _ => ?_)
          rw [decide_eq_decide]
          omega
      · simp only [rateCalls, hstep]
        rw [hrest.2]
        simp
        omega
    · have hstep : AuthService.check_rate_limit r t k 5 300
          = (true, redisIncr r t k) := by
        unfold AuthService.check_rate_limit
        rw [hget]
        simp [hn]
      have hr' : (redisIncr r t k) k = some ⟨n + 1, some T⟩ := by
        simp [redisIncr, hr, hlive]
      have hrest := ih (redisIncr r t k) (n + 1) hr' (by omega) (by omega)
        (fun x hx => hts x (List.mem_cons_of_mem t hx))
      constructor
      · simp only [rateCalls, hstep]
        rw [hrest.1, List.length_cons, map_decide_range_succ n ts.length]
        congr 1
        have h5' : n < 5 := by omega
        simp [h5']
      · simp only [rateCalls, hstep]
        rw [hrest.2]
        simp
        omega

/-- C3: the rate limiter is a fixed-window counter — from a key with no live
counter, the first call stores counter 1 with TTL equal to the window and is
allowed; the first five calls of the window are allowed and every later call
in the window is rejected; a rejected call leaves the store untouched (no
increment, no window reset); once the window has elapsed, the counter is gone
and the next call is allowed again with a fresh counter of 1. -/
theorem C3_rate_limiter_fixed_window (r₀ : Redis) (k : String) (t₀ : Nat)
    (ts : List Nat) (te : Nat)
    (hfresh : redisGet r₀ t₀ k = none)
    (hts : ∀ t ∈ ts, t < t₀ + 300)
    (hte : t₀ + 300 ≤ te) :
    (rateCalls k 5 300 r₀ (t₀ :: ts)).1
        = (List.range (ts.length + 1)).map (fun i => decide (i < 5))
    ∧ (∀ t, redisGet (AuthService.check_rate_limit r₀ t₀ k 5 300).2 t k
        = if t < t₀ + 300 then some 1 else none)
    ∧ (∀ (r : Redis) (now n : Nat), redisGet r now k = some n → 5 ≤ n →
        AuthService.check_rate_limit r now k 5 300 = (false, r))
    ∧ redisGet (rateCalls k 5 300 r₀ (t₀ :: ts)).2 te k = none
    ∧ (AuthService.check_rate_limit (rateCalls k 5 300 r₀ (t₀ :: ts)).2 te k 5 300).1
        = true
    ∧ (∀ t, t < te + 300 →
        redisGet (AuthService.check_rate_limit
          (rateCalls k 5 300 r₀ (t₀ :: ts)).2 te k 5 300).2 t k = some 1) := by
  have hstep0 : AuthService.check_rate_limit r₀ t₀ k 5 300
      = (true, redisSetex r₀ t₀ k 300 1) := by
    unfold AuthService.check_rate_limit
    rw [hfresh]
  have hset : (redisSetex r₀ t₀ k 300 1) k = some ⟨1, some (t₀ + 300)⟩ := by
    simp [redisSetex]
  have hinv := rateCalls_window_inv k (t₀ + 300) ts (redisSetex r₀ t₀ k 300 1) 1 hset
    (le_refl 1) (by omega) hts
  have hfinal : (rateCalls k 5 300 r₀ (t₀ :: ts)).2 k
      = some ⟨min (1 + ts.length) 5, some (t₀ + 300)⟩ := by
    simp only [rateCalls, hstep0]
    exact hinv.2
  have hdead : redisGet (rateCalls k 5 300 r₀ (t₀ :: ts)).2 te k = none := by
    have hnl : ¬ te < t₀ + 300 := by omega
    simp [redisGet, hfinal, RedisEntry.live, hnl]
  have hnext : AuthService.check_rate_limit (rateCalls k 5 300 r₀ (t₀ :: ts)).2 te k 5 300
      = (true, redisSetex (rateCalls k 5 300 r₀ (t₀ :: ts)).2 te k 300 1) := by
    unfold AuthService.check_rate_limit
    rw [hdead]
  refine ⟨?_, ?_, ?_, hdead, ?_, ?_⟩
  · simp only [rateCalls, hstep0]
    rw [hinv.1]
    have h₀ : (List.range (ts.length + 1)).map (fun i => decide (i < 5))
        = (List.range (ts.length + 1)).map (fun i => decide (0 + i < 5)) := by
      refine List.map_congr_left (fun i _ => ?_)
      rw [decide_eq_decide]
      omega
    rw [h₀, map_decide_range_succ 0 ts.length]
    exact rfl
  · intro t
    rw [hstep0]
    by_cases hlt : t < t₀ + 300
    · simp [redisGet, redisSetex, RedisEntry.live, hlt]
    · simp [redisGet, redisSetex, RedisEntry.live, hlt]
  · exact fun r now n hget hlim => check_rate_limit_rejected r now k n hget hlim
  · rw [hnext]
  · intro t hlt
    rw [hnext]
    simp [redisGet, redisSetex, RedisEntry.live, hlt]

/-- Witness for C3: seven calls on a fresh key within one window, then one
call after the window has elapsed. -/
theorem C3_rate_limiter_fixed_window_witness :
    (rateCalls "login_attempts:a@x.com" 5 300 (fun _ => none) (0 :: [10, 20, 30, 40, 50, 60])).1
        = (List.range ([10, 20, 30, 40, 50, 60].length + 1)).map (fun i => decide (i < 5))
    ∧ (∀ t, redisGet (AuthService.check_rate_limit (fun _ => none) 0
          "login_attempts:a@x.com" 5 300).2 t "login_attempts:a@x.com"
        = if t < 0 + 300 then some 1 else none)
    ∧ (∀ (r : Redis) (now n : Nat),
        redisGet r now "login_attempts:a@x.com" = some n → 5 ≤ n →
        AuthService.check_rate_limit r now "login_attempts:a@x.com" 5 300 = (false, r))
    ∧ redisGet (rateCalls "login_attempts:a@x.com" 5 300 (fun _ => none)
        (0 :: [10, 20, 30, 40, 50, 60])).2 300 "login_attempts:a@x.com" = none
    ∧ (AuthService.check_rate_limit (rateCalls "login_attempts:a@x.com" 5 300 (fun _ => none)
        (0 :: [10, 20, 30, 40, 50, 60])).2 300 "login_attempts:a@x.com" 5 300).1 = true
    ∧ (∀ t, t < 300 + 300 →
        redisGet (AuthService.check_rate_limit
          (rateCalls "login_attempts:a@x.com" 5 300 (fun _ => none)
            (0 :: [10, 20, 30, 40, 50, 60])).2 300 "login_attempts:a@x.com" 5 300).2 t
          "login_attempts:a@x.com" = some 1) :=
  C3_rate_limiter_fixed_window (fun _ => none) "login_attempts:a@x.com" 0
    [10, 20, 30, 40, 50, 60] 300 rfl (by decide) (by decide)

/-- C4 counterexample: with two duplicate valid OTP rows matching the
presented code, `verify_otp` raises `MultipleResultsFound` instead of
succeeding, although a stored, unexpired, unconsumed matching OTP exists. -/
theorem C4_otp_single_use_counterexample :
    AuthRouter.verify_otp defaultSettings 0 "fresh-raw" c4DupDB "a@x.com" "123456"
      = .error .multipleResultsFound
    ∧ (⟨1, 1, "123456", 100, none⟩ : OtpCode) ∈ c4DupDB.otp_codes := by
  refine ⟨?_, by decide⟩
  rfl

/-- C4 (amended): for a user with exactly one stored, unexpired, unconsumed
OTP row matching the presented code (and a unique membership to scope the
issued tokens to), `verify_otp` succeeds and marks that OTP consumed; a
second `verify_otp` with the same email and code then fails with 401, and any
code with no matching valid OTP row yields the same generic
"Invalid or expired OTP" rejection.  (With several duplicate matching rows
the lookup raises `MultipleResultsFound` instead of succeeding.) -/
theorem C4_otp_single_use (s : Settings) (now : Nat) (raw₁ raw₂ : String) (db : DB)
    (email code : String) (user : User) (otp : OtpCode) (m : MembershipRow)
    (huser : user ∈ db.users) (hemail : user.email = email)
    (hndEmail : (db.users.map (·.email)).Nodup)
    (hotp : db.otp_codes.filter (otpMatches user.id code now) = [otp])
    (hmem : db.memberships.filter (fun x => x.user_id == user.id) = [m]) :
    (∃ resp db₁,
      AuthRouter.verify_otp s now raw₁ db email code = .ok (resp, db₁)
      ∧ (⟨otp.id, otp.user_id, otp.code, otp.expires_at, some now⟩ : OtpCode)
          ∈ db₁.otp_codes
      ∧ AuthRouter.verify_otp s now raw₂ db₁ email code
          = .error (.http 401 "Invalid or expired OTP"))
    ∧ (∀ code', db.otp_codes.filter (otpMatches user.id code' now) = [] →
        AuthRouter.verify_otp s now raw₁ db email code'
          = .error (.http 401 "Invalid or expired OTP")) := by
  have hfilu : db.users.filter (fun u => u.email == email) = [user] :=
    filter_eq_singleton_key (fun x => x.email) _ _ user huser (by simp [hemail])
      (fun x hx => by
        rw [beq_iff_eq] at hx
        show x.email = user.email
        rw [hx, hemail]) hndEmail
  constructor
  · refine ⟨⟨AuthService.create_access_token s now user.id m.org_id m.role, raw₁,
        s.ACCESS_TTL_MIN * 60⟩,
      ⟨db.organizations, db.users, db.memberships,
        db.otp_codes.map (fun o => if o.id == otp.id then
          ⟨o.id, o.user_id, o.code, o.expires_at, some now⟩ else o),
        db.refresh_tokens ++ [⟨nextId (db.refresh_tokens.map (·.id)), user.id, m.org_id,
          AuthService.hash_token raw₁, now + s.REFRESH_TTL_DAYS * 86400, false⟩]⟩,
      ?_, ?_, ?_⟩
    · simp only [AuthRouter.verify_otp, hfilu, scalar_one_or_none, hotp, hmem]
    · have hotpmem : otp ∈ db.otp_codes := by
        have hx : otp ∈ db.otp_codes.filter (otpMatches user.id code now) := by
          rw [hotp]
          exact List.mem_singleton.2 rfl
        exact List.mem_of_mem_filter hx
      refine List.mem_map.2 ⟨otp, hotpmem, ?_⟩
      simp
    · have hotp2 : (db.otp_codes.map (fun o => if o.id == otp.id then
            ⟨o.id, o.user_id, o.code, o.expires_at, some now⟩ else o)).filter
          (otpMatches user.id code now) = [] := by
        refine List.filter_eq_nil_iff.2 (fun o' ho' => ?_)
        obtain ⟨o, ho, rfl⟩ := List.mem_map.1 ho'
        by_cases hid : (o.id == otp.id) = true
        · rw [if_pos hid]
          intro hmatch
          simp [otpMatches] at hmatch
        · rw [if_neg hid]
          intro hmatch
          have hof : o ∈ db.otp_codes.filter (otpMatches user.id code now) :=
            List.mem_filter.2 ⟨ho, hmatch⟩
          rw [hotp] at hof
          have hoe : o = otp := List.mem_singleton.1 hof
          refine hid ?_
          rw [hoe]
          simp
      simp only [AuthRouter.verify_otp, scalar_one_or_none, hfilu, hotp2]
  · intro code' hv
    simp only [AuthRouter.verify_otp, hfilu, scalar_one_or_none, hv]

/-- Witness for C4's amended theorem at a concrete store with one valid OTP
row and one membership. -/
theorem C4_otp_single_use_witness :
    (∃ resp db₁,
      AuthRouter.verify_otp defaultSettings 0 "raw1" c4DB "a@x.com" "123456"
          = .ok (resp, db₁)
      ∧ (⟨1, 1, "123456", 100, some 0⟩ : OtpCode) ∈ db₁.otp_codes
      ∧ AuthRouter.verify_otp defaultSettings 0 "raw2" db₁ "a@x.com" "123456"
          = .error (.http 401 "Invalid or expired OTP"))
    ∧ (∀ code', c4DB.otp_codes.filter (otpMatches 1 code' 0) = [] →
        AuthRouter.verify_otp defaultSettings 0 "raw1" c4DB "a@x.com" code'
          = .error (.http 401 "Invalid or expired OTP")) :=
  C4_otp_single_use defaultSettings 0 "raw1" "raw2" c4DB "a@x.com" "123456"
    ⟨1, "a@x.com", none⟩ ⟨1, 1, "123456", 100, none⟩ ⟨1, 1, 1, "admin"⟩
    (by decide) rfl (by decide) (by decide) (by decide)

/-- C8 counterexample: a user with two memberships and a valid OTP gets
`MultipleResultsFound` from the membership lookup — `verify_otp` errors
instead of picking the user's first membership. -/
theorem C8_membership_selection_counterexample :
    AuthRouter.verify_otp defaultSettings 0 "fresh-raw-2" c8DB "a@x.com" "654321"
      = .error .multipleResultsFound
    ∧ (⟨1, 1, 1, "admin"⟩ : MembershipRow) ∈ c8DB.memberships
    ∧ (⟨2, 1, 2, "member"⟩ : MembershipRow) ∈ c8DB.memberships := by
  refine ⟨?_, by decide, by decide⟩
  rfl

/-- C8 (amended): on successful OTP verification the issued pair is scoped to
the user's unique membership when exactly one exists; a user with zero
memberships fails with the 400 "no membership" error; a user with two or more
memberships makes the `scalar_one_or_none` lookup raise
`MultipleResultsFound` — the handler does not pick the first membership. -/
theorem C8_membership_selection (s : Settings) (now : Nat) (raw : String) (db : DB)
    (email code : String) (user : User) (otp : OtpCode)
    (huser : user ∈ db.users) (hemail : user.email = email)
    (hndEmail : (db.users.map (·.email)).Nodup)
    (hotp : db.otp_codes.filter (otpMatches user.id code now) = [otp]) :
    (∀ m : MembershipRow,
      db.memberships.filter (fun x => x.user_id == user.id) = [m] →
      ∃ resp db₁, AuthRouter.verify_otp s now raw db email code = .ok (resp, db₁)
        ∧ resp.access_token
            = AuthService.create_access_token s now user.id m.org_id m.role
        ∧ ∃ rt, rt ∈ db₁.refresh_tokens ∧ rt.user_id = user.id ∧ rt.org_id = m.org_id
            ∧ rt.token_hash = AuthService.hash_token raw)
    ∧ (db.memberships.filter (fun x => x.user_id == user.id) = [] →
        AuthRouter.verify_otp s now raw db email code
          = .error (.http 400 "User has no organization membership"))
    ∧ (∀ m₁ m₂ rest,
        db.memberships.filter (fun x => x.user_id == user.id) = m₁ :: m₂ :: rest →
        AuthRouter.verify_otp s now raw db email code
          = .error .multipleResultsFound) := by
  have hfilu : db.users.filter (fun u => u.email == email) = [user] :=
    filter_eq_singleton_key (fun x => x.email) _ _ user huser (by simp [hemail])
      (fun x hx => by
        rw [beq_iff_eq] at hx
        show x.email = user.email
        rw [hx, hemail]) hndEmail
  refine ⟨?_, ?_, ?_⟩
  · intro m hm
    refine ⟨⟨AuthService.create_access_token s now user.id m.org_id m.role, raw,
        s.ACCESS_TTL_MIN * 60⟩,
      ⟨db.organizations, db.users, db.memberships,
        db.otp_codes.map (fun o => if o.id == otp.id then
          ⟨o.id, o.user_id, o.code, o.expires_at, some now⟩ else o),
        db.refresh_tokens ++ [⟨nextId (db.refresh_tokens.map (·.id)), user.id, m.org_id,
          AuthService.hash_token raw, now + s.REFRESH_TTL_DAYS * 86400, false⟩]⟩,
      ?_, rfl, ?_⟩
    · simp only [AuthRouter.verify_otp, hfilu, scalar_one_or_none, hotp, hm]
    · refine ⟨⟨nextId (db.refresh_tokens.map (·.id)), user.id, m.org_id,
        AuthService.hash_token raw, now + s.REFRESH_TTL_DAYS * 86400, false⟩,
        List.mem_append_right _ (List.mem_singleton.2 rfl), rfl, rfl, rfl⟩
  · intro hm
    simp only [AuthRouter.verify_otp, hfilu, scalar_one_or_none, hotp, hm]
  · intro m₁ m₂ rest hm
    simp only [AuthRouter.verify_otp, hfilu, scalar_one_or_none, hotp, hm]

/-- Witness for C8's amended theorem at the two-membership store `c8DB`. -/
theorem C8_membership_selection_witness :
    (∀ m : MembershipRow,
      c8DB.memberships.filter (fun x => x.user_id == 1) = [m] →
      ∃ resp db₁,
        AuthRouter.verify_otp defaultSettings 0 "raw8" c8DB "a@x.com" "654321"
          = .ok (resp, db₁)
        ∧ resp.access_token
            = AuthService.create_access_token defaultSettings 0 1 m.org_id m.role
        ∧ ∃ rt, rt ∈ db₁.refresh_tokens ∧ rt.user_id = 1 ∧ rt.org_id = m.org_id
            ∧ rt.token_hash = AuthService.hash_token "raw8")
    ∧ (c8DB.memberships.filter (fun x => x.user_id == 1) = [] →
        AuthRouter.verify_otp defaultSettings 0 "raw8" c8DB "a@x.com" "654321"
          = .error (.http 400 "User has no organization membership"))
    ∧ (∀ m₁ m₂ rest,
        c8DB.memberships.filter (fun x => x.user_id == 1) = m₁ :: m₂ :: rest →
        AuthRouter.verify_otp defaultSettings 0 "raw8" c8DB "a@x.com" "654321"
          = .error .multipleResultsFound) :=
  C8_membership_selection defaultSettings 0 "raw8" c8DB "a@x.com" "654321"
    ⟨1, "a@x.com", none⟩ ⟨1, 1, "654321", 100, none⟩
    (by decide) rfl (by decide) (by decide)

/-- Evaluation of the refresh handler when the presented token's lookup
matches exactly the row `tok` and the user–membership join has first row
`z`. -/
lemma refresh_token_eq (s : Settings) (now : Nat) (rawNew : String) (db : DB)
    (presented : String) (tok : RefreshToken) (z : User × MembershipRow)
    (hfil : db.refresh_tokens.filter
        (refreshMatches (AuthService.hash_token presented) now) = [tok])
    (hhead : (db.users.flatMap (fun u => db.memberships.filterMap (fun m =>
        if u.id == m.user_id && u.id == tok.user_id && m.org_id == tok.org_id
        then some (u, m) else none))).head? = some z) :
    AuthRouter.refresh_token s now rawNew db presented
      = .ok (⟨AuthService.create_access_token s now z.1.id z.2.org_id z.2.role, rawNew,
          s.ACCESS_TTL_MIN * 60⟩,
        ⟨db.organizations, db.users, db.memberships, db.otp_codes,
          (db.refresh_tokens.map (fun r => if r.id == tok.id then
            ⟨r.id, r.user_id, r.org_id, r.token_hash, r.expires_at, true⟩ else r))
          ++ [⟨nextId ((db.refresh_tokens.map (fun r => if r.id == tok.id then
                ⟨r.id, r.user_id, r.org_id, r.token_hash, r.expires_at, true⟩ else r)).map
                (·.id)),
              z.1.id, z.2.org_id, AuthService.hash_token rawNew,
              now + s.REFRESH_TTL_DAYS * 86400, false⟩]⟩) := by
  simp only [AuthRouter.refresh_token, hfil, scalar_one_or_none, hhead]

/-- Evaluation of the refresh handler when the presented token's lookup finds
no live row. -/
lemma refresh_token_err (s : Settings) (now : Nat) (rawNew : String) (db : DB)
    (presented : String)
    (hfil : db.refresh_tokens.filter
        (refreshMatches (AuthService.hash_token presented) now) = []) :
    AuthRouter.refresh_token s now rawNew db presented
      = .error (.http 401 "Invalid refresh token") := by
  simp only [AuthRouter.refresh_token, hfil, scalar_one_or_none]

/-- C1: refresh-token rotation is single-use — for a stored, unrevoked,
unexpired refresh token `T` (whose bound user and membership exist, with the
schema's unique token hashes, and a freshly drawn replacement string),
`refresh(T)` succeeds and returns a pair whose refresh token is the fresh
string `raw₁ ≠ T`, the row of `T` is marked revoked, a subsequent
`refresh(T)` fails with 401, and `refresh(raw₁)` succeeds. -/
theorem C1_refresh_rotation (s : Settings) (now : Nat) (db : DB)
    (T raw₁ raw₂ : String) (tokRec : RefreshToken)
    (httl : 0 < s.REFRESH_TTL_DAYS)
    (hmem : tokRec ∈ db.refresh_tokens)
    (hhash : tokRec.token_hash = AuthService.hash_token T)
    (hrev : tokRec.revoked = false)
    (hexp : now < tokRec.expires_at)
    (hnd : (db.refresh_tokens.map (·.token_hash)).Nodup)
    (hfresh : AuthService.hash_token raw₁ ∉ db.refresh_tokens.map (·.token_hash))
    (hjoin : ∃ u ∈ db.users, ∃ mm ∈ db.memberships,
      u.id = tokRec.user_id ∧ mm.user_id = tokRec.user_id ∧ mm.org_id = tokRec.org_id) :
    ∃ resp₁ db₁,
      AuthRouter.refresh_token s now raw₁ db T = .ok (resp₁, db₁)
      ∧ resp₁.refresh_token = raw₁
      ∧ raw₁ ≠ T
      ∧ (⟨tokRec.id, tokRec.user_id, tokRec.org_id, tokRec.token_hash,
            tokRec.expires_at, true⟩ : RefreshToken) ∈ db₁.refresh_tokens
      ∧ AuthRouter.refresh_token s now raw₂ db₁ T
          = .error (.http 401 "Invalid refresh token")
      ∧ ∃ resp₂ db₂, AuthRouter.refresh_token s now raw₂ db₁ raw₁ = .ok (resp₂, db₂) := by
  -- the presented token's lookup is exactly [tokRec]
  have hfil : db.refresh_tokens.filter
      (refreshMatches (AuthService.hash_token T) now) = [tokRec] := by
    refine filter_eq_singleton_key (fun x => x.token_hash) _ _ tokRec hmem ?_ ?_ hnd
    · simp [refreshMatches, hhash, hrev, hexp]
    · intro x hx
      simp [refreshMatches] at hx
      show x.token_hash = tokRec.token_hash
      rw [hx.1.1, hhash]
  -- the user–membership join is nonempty
  obtain ⟨u, hu, mm, hmm, hu_id, hmm_uid, hmm_org⟩ := hjoin
  have hpair : (u, mm) ∈ db.users.flatMap (fun u => db.memberships.filterMap (fun m =>
      if u.id == m.user_id && u.id == tokRec.user_id && m.org_id == tokRec.org_id
      then some (u, m) else none)) := by
    refine List.mem_flatMap.2 ⟨u, hu, ?_⟩
    refine List.mem_filterMap.2 ⟨mm, hmm, ?_⟩
    have hc : (u.id == mm.user_id && u.id == tokRec.user_id
        && mm.org_id == tokRec.org_id) = true := by
      simp [hu_id, hmm_uid, hmm_org]
    rw [if_pos hc]
  obtain ⟨z, hz⟩ : ∃ z, (db.users.flatMap (fun u => db.memberships.filterMap (fun m =>
      if u.id == m.user_id && u.id == tokRec.user_id && m.org_id == tokRec.org_id
      then some (u, m) else none))).head? = some z := by
    cases hcase : db.users.flatMap (fun u => db.memberships.filterMap (fun m =>
        if u.id == m.user_id && u.id == tokRec.user_id && m.org_id == tokRec.org_id
        then some (u, m) else none)) with
    | nil => rw [hcase] at hpair; cases hpair
    | cons x xs => exact ⟨x, rfl⟩
  have hzmem : z ∈ db.users.flatMap (fun u => db.memberships.filterMap (fun m =>
      if u.id == m.user_id && u.id == tokRec.user_id && m.org_id == tokRec.org_id
      then some (u, m) else none)) :=
    List.mem_of_mem_head? (Option.mem_def.2 hz)
  obtain ⟨zu, hzu, hzr⟩ := List.mem_flatMap.1 hzmem
  obtain ⟨zm, hzm, hzeq⟩ := List.mem_filterMap.1 hzr
  have hcond : (zu.id == zm.user_id && zu.id == tokRec.user_id
      && zm.org_id == tokRec.org_id) = true := by
    by_cases h : (zu.id == zm.user_id && zu.id == tokRec.user_id
        && zm.org_id == tokRec.org_id) = true
    · exact h
    · rw [if_neg h] at hzeq
      cases hzeq
  rw [if_pos hcond] at hzeq
  injection hzeq with hzv
  subst hzv
  simp only [Bool.and_eq_true, beq_iff_eq] at hcond
  obtain ⟨⟨hc1, hc2⟩, hc3⟩ := hcond
  -- evaluate the first refresh call
  have hcall1 := refresh_token_eq s now raw₁ db T tokRec (zu, zm) hfil hz
  -- the raw refresh strings differ
  have hneqT : raw₁ ≠ T := by
    intro heq
    apply hfresh
    have hrw : AuthService.hash_token raw₁ = tokRec.token_hash := by
      rw [heq, hhash]
    rw [hrw]
    exact List.mem_map_of_mem _ hmem
  have hhashneq : AuthService.hash_token raw₁ ≠ AuthService.hash_token T := by
    intro hh
    apply hfresh
    rw [hh, ← hhash]
    exact List.mem_map_of_mem _ hmem
  refine ⟨_, _, hcall1, rfl, hneqT, ?_, ?_, ?_⟩
  · -- the presented row is now stored revoked
    refine List.mem_append_left _ ?_
    refine List.mem_map.2 ⟨tokRec, hmem, ?_⟩
    simp
  · -- replaying T fails 401
    refine refresh_token_err s now raw₂ _ T ?_
    show ((db.refresh_tokens.map (fun r => if r.id == tokRec.id then
        ⟨r.id, r.user_id, r.org_id, r.token_hash, r.expires_at, true⟩ else r))
      ++ [(⟨nextId ((db.refresh_tokens.map (fun r => if r.id == tokRec.id then
            ⟨r.id, r.user_id, r.org_id, r.token_hash, r.expires_at, true⟩ else r)).map
            (·.id)),
          (zu, zm).1.id, (zu, zm).2.org_id, AuthService.hash_token raw₁,
          now + s.REFRESH_TTL_DAYS * 86400, false⟩ : RefreshToken)]).filter
        (refreshMatches (AuthService.hash_token T) now) = []
    rw [List.filter_append]
    have h1 : (db.refresh_tokens.map (fun r => if r.id == tokRec.id then
        (⟨r.id, r.user_id, r.org_id, r.token_hash, r.expires_at, true⟩ : RefreshToken)
        else r)).filter (refreshMatches (AuthService.hash_token T) now) = [] := by
      refine List.filter_eq_nil_iff.2 (fun r' hr' => ?_)
      obtain ⟨r, hrmem, rfl⟩ := List.mem_map.1 hr'
      by_cases hid : (r.id == tokRec.id) = true
      · rw [if_pos hid]
        intro hmatch
        simp [refreshMatches] at hmatch
      · rw [if_neg hid]
        intro hmatch
        simp [refreshMatches] at hmatch
        have hreq : r = tokRec :=
          List.inj_on_of_nodup_map hnd hrmem hmem (by
            show r.token_hash = tokRec.token_hash
            rw [hmatch.1.1, hhash])
        refine hid ?_
        rw [hreq]
        simp
    have h2 : [(⟨nextId ((db.refresh_tokens.map (fun r => if r.id == tokRec.id then
          ⟨r.id, r.user_id, r.org_id, r.token_hash, r.expires_at, true⟩ else r)).map
          (·.id)),
        (zu, zm).1.id, (zu, zm).2.org_id, AuthService.hash_token raw₁,
        now + s.REFRESH_TTL_DAYS * 86400, false⟩ : RefreshToken)].filter
        (refreshMatches (AuthService.hash_token T) now) = [] := by
      simp [refreshMatches, hhashneq]
    rw [h1, h2]
    rfl
  · -- refreshing with the replacement raw₁ succeeds
    have hlt : now < now + s.REFRESH_TTL_DAYS * 86400 := by omega
    have hfil3 : ((db.refresh_tokens.map (fun r => if r.id == tokRec.id then
        (⟨r.id, r.user_id, r.org_id, r.token_hash, r.expires_at, true⟩ : RefreshToken)
        else r))
      ++ [(⟨nextId ((db.refresh_tokens.map (fun r => if r.id == tokRec.id then
            ⟨r.id, r.user_id, r.org_id, r.token_hash, r.expires_at, true⟩ else r)).map
            (·.id)),
          (zu, zm).1.id, (zu, zm).2.org_id, AuthService.hash_token raw₁,
          now + s.REFRESH_TTL_DAYS * 86400, false⟩ : RefreshToken)]).filter
        (refreshMatches (AuthService.hash_token raw₁) now)
      = [(⟨nextId ((db.refresh_tokens.map (fun r => if r.id == tokRec.id then
            ⟨r.id, r.user_id, r.org_id, r.token_hash, r.expires_at, true⟩ else r)).map
            (·.id)),
          (zu, zm).1.id, (zu, zm).2.org_id, AuthService.hash_token raw₁,
          now + s.REFRESH_TTL_DAYS * 86400, false⟩ : RefreshToken)] := by
      rw [List.filter_append]
      have h1 : (db.refresh_tokens.map (fun r => if r.id == tokRec.id then
          (⟨r.id, r.user_id, r.org_id, r.token_hash, r.expires_at, true⟩ : RefreshToken)
          else r)).filter (refreshMatches (AuthService.hash_token raw₁) now) = [] := by
        refine List.filter_eq_nil_iff.2 (fun r' hr' => ?_)
        obtain ⟨r, hrmem, rfl⟩ := List.mem_map.1 hr'
        by_cases hid : (r.id == tokRec.id) = true
        · rw [if_pos hid]
          intro hmatch
          simp [refreshMatches] at hmatch
        · rw [if_neg hid]
          intro hmatch
          simp [refreshMatches] at hmatch
          exact hfresh (hmatch.1.1 ▸ List.mem_map_of_mem _ hrmem)
      have h2 : [(⟨nextId ((db.refresh_tokens.map (fun r => if r.id == tokRec.id then
            ⟨r.id, r.user_id, r.org_id, r.token_hash, r.expires_at, true⟩ else r)).map
            (·.id)),
          (zu, zm).1.id, (zu, zm).2.org_id, AuthService.hash_token raw₁,
          now + s.REFRESH_TTL_DAYS * 86400, false⟩ : RefreshToken)].filter
          (refreshMatches (AuthService.hash_token raw₁) now)
          = [(⟨nextId ((db.refresh_tokens.map (fun r => if r.id == tokRec.id then
              ⟨r.id, r.user_id, r.org_id, r.token_hash, r.expires_at, true⟩ else r)).map
              (·.id)),
            (zu, zm).1.id, (zu, zm).2.org_id, AuthService.hash_token raw₁,
            now + s.REFRESH_TTL_DAYS * 86400, false⟩ : RefreshToken)] := by
        simp [refreshMatches, hlt]
      rw [h1, h2]
      rfl
    -- the join rows for the replacement token are nonempty
    have hpair3 : (zu, zm) ∈ db.users.flatMap (fun u2 => db.memberships.filterMap (fun m2 =>
        if u2.id == m2.user_id && u2.id == zu.id && m2.org_id == zm.org_id
        then some (u2, m2) else none)) := by
      refine List.mem_flatMap.2 ⟨zu, hzu, ?_⟩
      refine List.mem_filterMap.2 ⟨zm, hzm, ?_⟩
      have hc : (zu.id == zm.user_id && zu.id == zu.id && zm.org_id == zm.org_id) = true := by
        simp [hc1]
      rw [if_pos hc]
    obtain ⟨z3, hz3⟩ : ∃ z3, (db.users.flatMap (fun u2 => db.memberships.filterMap (fun m2 =>
        if u2.id == m2.user_id && u2.id == zu.id && m2.org_id == zm.org_id
        then some (u2, m2) else none))).head? = some z3 := by
      cases hcase : db.users.flatMap (fun u2 => db.memberships.filterMap (fun m2 =>
          if u2.id == m2.user_id && u2.id == zu.id && m2.org_id == zm.org_id
          then some (u2, m2) else none)) with
      | nil => rw [hcase] at hpair3; cases hpair3
      | cons x xs => exact ⟨x, rfl⟩
    exact ⟨_, _, refresh_token_eq s now raw₂ _ raw₁ _ z3 hfil3 hz3⟩

/-- Witness for C1 at a concrete store holding one live refresh token. -/
theorem C1_refresh_rotation_witness :
    ∃ resp₁ db₁,
      AuthRouter.refresh_token defaultSettings 0 "rawNew1" c1DB "rawT" = .ok (resp₁, db₁)
      ∧ resp₁.refresh_token = "rawNew1"
      ∧ "rawNew1" ≠ "rawT"
      ∧ (⟨1, 1, 1, AuthService.hash_token "rawT", 1000, true⟩ : RefreshToken)
          ∈ db₁.refresh_tokens
      ∧ AuthRouter.refresh_token defaultSettings 0 "rawNew2" db₁ "rawT"
          = .error (.http 401 "Invalid refresh token")
      ∧ ∃ resp₂ db₂,
          AuthRouter.refresh_token defaultSettings 0 "rawNew2" db₁ "rawNew1"
            = .ok (resp₂, db₂) :=
  C1_refresh_rotation defaultSettings 0 c1DB "rawT" "rawNew1" "rawNew2"
    ⟨1, 1, 1, AuthService.hash_token "rawT", 1000, false⟩
    (by decide) (by decide) rfl rfl (by decide) (by decide) (by decide)
    ⟨⟨1, "a@x.com", none⟩, by decide, ⟨1, 1, 1, "admin"⟩, by decide, rfl, rfl, rfl⟩

/-- C10: with no Google client id configured, external token verification
accepts exactly the literal `"MOCK_ID_TOKEN"` (returning the fixed identity
with email `test@example.com`) and rejects every other token; in that
configuration `google_login` with that literal token succeeds against any
organization the request resolves to (for any caller, under the schema's
unique emails and unique (user, org) memberships). -/
theorem C10_google_mock_mode (s : Settings) (hs : s.GOOGLE_CLIENT_ID.getD "" = "")
    (extVerify : String → Option GoogleUserInfo) :
    (∀ tok info, AuthService.verify_google_token s extVerify tok = some info
      ↔ (tok = "MOCK_ID_TOKEN"
          ∧ info = ⟨"test@example.com", "Test User", "mock_google_id"⟩))
    ∧ (∀ (now : Nat) (raw : String) (db : DB) (req : Request) (org : Organization),
        (db.users.map (·.email)).Nodup →
        (db.memberships.map (fun m => (m.user_id, m.org_id))).Nodup →
        TenantMiddleware.resolve_organization s now db req = .ok (some org) →
        ∃ resp db', AuthRouter.google_login s now extVerify raw db req "MOCK_ID_TOKEN"
          = .ok (resp, db')) := by
  constructor
  · intro tok info
    unfold AuthService.verify_google_token
    rw [if_pos (beq_iff_eq.2 hs)]
    by_cases htok : (tok == "MOCK_ID_TOKEN") = true
    · rw [if_pos htok]
      constructor
      · intro h
        injection h with h'
        exact ⟨beq_iff_eq.1 htok, h'.symm⟩
      · rintro ⟨-, rfl⟩
        rfl
    · rw [if_neg htok]
      constructor
      · intro h
        cases h
      · rintro ⟨h1, -⟩
        exact absurd (beq_iff_eq.2 h1) htok
  · intro now raw db req org hndEmail hndPair hres
    have hver : AuthService.verify_google_token s extVerify "MOCK_ID_TOKEN"
        = some ⟨"test@example.com", "Test User", "mock_google_id"⟩ := by
      unfold AuthService.verify_google_token
      rw [if_pos (beq_iff_eq.2 hs)]
      rfl
    have huser := scalar_filter_eq_find (fun u => u.email) db.users hndEmail
      "test@example.com"
    have hmemb : ∀ uid oid, ∃ o, scalar_one_or_none (db.memberships.filter
        (fun m => m.user_id == uid && m.org_id == oid)) = .ok o := by
      intro uid oid
      refine ⟨_, scalar_of_len_le_one _ ?_⟩
      refine length_filter_le_one_of_key (fun m => (m.user_id, m.org_id)) _ _ hndPair ?_
      intro x y hx hy
      simp only [Bool.and_eq_true, beq_iff_eq] at hx hy
      show (x.user_id, x.org_id) = (y.user_id, y.org_id)
      rw [hx.1, hx.2, hy.1, hy.2]
    cases hfind : db.users.find? (fun u => u.email == "test@example.com") with
    | some u0 =>
      obtain ⟨o, ho⟩ := hmemb u0.id org.id
      cases o with
      | some m0 =>
        simp only [AuthRouter.google_login, hver, hres, huser, hfind, ho]
        exact ⟨_, _, rfl⟩
      | none =>
        simp only [AuthRouter.google_login, hver, hres, huser, hfind, ho]
        exact ⟨_, _, rfl⟩
    | none =>
      obtain ⟨o, ho⟩ := hmemb (nextId (db.users.map (fun x => x.id))) org.id
      cases o with
      | some m0 =>
        simp only [AuthRouter.google_login, hver, hres, huser, hfind, ho]
        exact ⟨_, _, rfl⟩
      | none =>
        simp only [AuthRouter.google_login, hver, hres, huser, hfind, ho]
        exact ⟨_, _, rfl⟩

/-- Witness for C10: the mock token logs any caller into the organization
resolved from the `testco` subdomain of an otherwise empty store. -/
theorem C10_google_mock_mode_witness :
    ∃ resp db', AuthRouter.google_login defaultSettings 0 (fun _ => none) "rawg"
        c10DB ⟨"testco.example.local", none⟩ "MOCK_ID_TOKEN" = .ok (resp, db') :=
  (C10_google_mock_mode defaultSettings rfl (fun _ => none)).2 0 "rawg" c10DB
    ⟨"testco.example.local", none⟩ ⟨1, "Test Company", "testco"⟩
    (by decide) (by decide) rfl
